import Mathlib

/-!
Shallow embedding of the AnPU Nano emulator (`src/src/main.rs`).

Modelling conventions:
* Machine integers (`u16`, `u32`, `usize`) are `Nat` with explicit wrapping
  (`% 65536`, two's-complement subtraction via `sub16`, bitwise complement via
  `not16`) exactly where the Rust release build wraps.
* The fixed-size arrays `rom/ram/reg/inp/out/flg` are modelled as total
  functions `Nat → _`; their meaningful domain is the array's index range and
  every access in the source is wrapped into that range before indexing.
* All terminal drawing (`stdout.queue(..)`) is pure display and is dropped;
  the `current_*` highlight metadata fields are kept because the source
  mutates them.
* The 7-entry log buffer `log_buffer` keeps the source semantics: a push
  shifts entries 1..6 down and stores the new entry padded to width 22 at
  slot 6.
* `cycle` decodes by formatting the fetched word as a 16-character binary
  string and slicing it; for a word `w < 65536`, the slice `[i..j)` equals
  `w / 2^(16-j) % 2^(j-i)`, which is how the field extractors below are
  written.
-/

set_option maxRecDepth 10000
set_option linter.unusedVariables false

inductive Mode where
  | Setup : Mode
  | ManualStep : Mode
  | Automatic : Nat → Mode
deriving DecidableEq

/-- Pointwise update of a function-modelled store. -/
def upd (f : Nat → α) (i : Nat) (v : α) : Nat → α := fun j => if j = i then v else f j

/-- The `EmulatorState` struct of the source (drawing handles dropped). -/
structure EmulatorState where
  rom : Nat → Nat
  ram : Nat → Nat
  reg : Nat → Nat
  inp : Nat → Nat
  out : Nat → Nat
  flg : Nat → Bool
  pc : Nat
  mode : Mode
  log_buffer : Nat → String
  executed_instructions : Nat
  current_rom_read : Option Nat
  current_ram_write : Option Nat
  current_reg_write : Option Nat

/-- Wrapping of a `u16` value (Rust release-mode overflow semantics). -/
def wrap16 (n : Nat) : Nat := n % 65536

/-- Two's-complement `u16` subtraction `a - b` (Rust release-mode wrapping). -/
def sub16 (a b : Nat) : Nat := (a + (65536 - b % 65536)) % 65536

/-- Bitwise complement `!a` on `u16` (for `a < 65536` this is `65535 - a`). -/
def not16 (a : Nat) : Nat := 65535 - a % 65536

/-- The `format!("{: <22}", e)` padding applied by `push_log`. -/
def pad22 (e : String) : String := e ++ String.mk (List.replicate (22 - e.length) ' ')

/-- `EmulatorState::push_log`: shift the 7-entry FIFO and store the padded
entry at slot 6 (the redraw is display-only and dropped). -/
def push_log (s : EmulatorState) (new_entry : String) : EmulatorState :=
  { s with log_buffer := fun i => if i < 6 then s.log_buffer (i + 1) else pad22 new_entry }

/-- `EmulatorState::write_to_rom`: wrap the index mod 64, truncate the value
mod 65536. -/
def write_to_rom (s : EmulatorState) (idx val : Nat) : EmulatorState :=
  { s with rom := upd s.rom (idx % 64) (val % 65536) }

/-- `EmulatorState::write_to_ram`: wrap the index mod 32, truncate the value
mod 256, remember the last written cell. -/
def write_to_ram (s : EmulatorState) (idx val : Nat) : EmulatorState :=
  { s with ram := upd s.ram (idx % 32) (val % 256), current_ram_write := some (idx % 32) }

/-- `EmulatorState::write_to_regs`: wrap the index mod 8, truncate the value
mod 256, remember the last written register. -/
def write_to_regs (s : EmulatorState) (idx val : Nat) : EmulatorState :=
  { s with reg := upd s.reg (idx % 8) (val % 256), current_reg_write := some (idx % 8) }

/-- `EmulatorState::reset_last_mods` (the redraw part is display-only). -/
def reset_last_mods (s : EmulatorState) : EmulatorState :=
  { s with current_rom_read := none, current_ram_write := none, current_reg_write := none }

/-- `EmulatorState::program_reset`: clear RAM/registers/IO/flags (flag 15 set
back to true), pc to 0, mode to Setup, clear the log, log the previous
executed-instruction count, zero that counter, clear the highlight metadata. -/
def program_reset (s : EmulatorState) : EmulatorState :=
  let s1 : EmulatorState :=
    { s with ram := fun _ => 0, reg := fun _ => 0, inp := fun _ => 0, out := fun _ => 0,
             flg := upd (fun _ => false) 15 true, pc := 0, mode := Mode.Setup,
             log_buffer := fun _ => "" }
  let s2 := push_log s1 ("Ex. instr: " ++ toString s1.executed_instructions)
  reset_last_mods { s2 with executed_instructions := 0 }

/-- `EmulatorState::full_reset`: zero ROM, then `program_reset`. -/
def full_reset (s : EmulatorState) : EmulatorState :=
  program_reset { s with rom := fun _ => 0 }

/-- The fetched ROM word `self.read_from_rom(self.pc)` (index wrapped mod 64). -/
def fetched (s : EmulatorState) : Nat := s.rom (s.pc % 64)

/-- Bits [0..4) of the 16-bit instruction word (`&instruction[0..4]`). -/
def opcodeOf (w : Nat) : Nat := w / 4096

/-- Bits [4..8) of the 16-bit instruction word (`&instruction[4..8]`). -/
def fDest (w : Nat) : Nat := w / 256 % 16

/-- Bits [8..12) of the 16-bit instruction word (`&instruction[8..12]`). -/
def fSrcA (w : Nat) : Nat := w / 16 % 16

/-- Bits [12..16) of the 16-bit instruction word (`&instruction[12..16]`). -/
def fSrcB (w : Nat) : Nat := w % 16

/-- Bits [8..16) of the 16-bit instruction word (`&instruction[8..16]`). -/
def fImm8 (w : Nat) : Nat := w % 256

/-- Bits [4..16) of the 16-bit instruction word (`&instruction[4..16]`). -/
def fAddr12 (w : Nat) : Nat := w % 4096

/-- The shared front of `cycle`: record the ROM read of `rom[pc % 64]` and
bump the executed-instruction counter. -/
def fetchStage (s0 : EmulatorState) : EmulatorState :=
  { s0 with current_rom_read := some (s0.pc % 64),
            executed_instructions := s0.executed_instructions + 1 }

/-- The `"0000"` (halt) arm of `cycle`. -/
def execHalt (s : EmulatorState) : EmulatorState :=
  push_log { s with mode := Mode.Setup, pc := wrap16 (s.pc + 1) } "int"

/-- The ADD flag writes of the `"0001"` arm: flags are assigned in source
order, and the flag-4 assignment reads back the just-written flag 2. -/
def addFlags (g : Nat → Bool) (a b : Nat) : Nat → Bool :=
  let f := upd g 0 (decide (wrap16 (a + b) % 256 = 0))
  let f := upd f 1 (decide (wrap16 (a + b) % 256 ≠ 0))
  let f := upd f 2 (decide ((a % 256 + b % 256) &&& 256 ≠ 0))
  let f := upd f 3 (decide ((a % 256 + b % 256) &&& 256 = 0))
  let f := upd f 4 (xor (decide ((a % 128 + b % 128) &&& 128 ≠ 0)) (f 2))
  let f := upd f 5 (! f 4)
  let f := upd f 6 (decide (wrap16 (a + b) % 2 = 0))
  upd f 7 (decide (wrap16 (a + b) % 2 ≠ 0))

/-- The `"0001"` (add) arm of `cycle`. -/
def execAdd (temp : Nat) (s : EmulatorState) : EmulatorState :=
  let dest := fDest temp
  let src_a := fSrcA temp
  let src_b := fSrcB temp
  let a := s.reg (src_a % 8)
  let b := s.reg (src_b % 8)
  let s := write_to_regs { s with flg := addFlags s.flg a b } (dest % 8) (wrap16 (a + b) % 256)
  let s := { s with pc := wrap16 (s.pc + 1) }
  push_log s ("add " ++ toString (dest % 8) ++ ", " ++ toString (src_a % 8)
    ++ ", " ++ toString (src_b % 8))

/-- The SUB flag writes of the `"0010"` arm (wrapping `u16` subtraction). -/
def subFlags (g : Nat → Bool) (a b : Nat) : Nat → Bool :=
  let f := upd g 0 (decide (sub16 a b % 256 = 0))
  let f := upd f 1 (decide (sub16 a b % 256 ≠ 0))
  let f := upd f 2 (decide (sub16 (a % 256) (b % 256) &&& 256 ≠ 0))
  let f := upd f 3 (decide (sub16 (a % 256) (b % 256) &&& 256 = 0))
  let f := upd f 4 (xor (decide (sub16 (a % 128) (b % 128) &&& 128 ≠ 0)) (f 2))
  let f := upd f 5 (! f 4)
  let f := upd f 6 (decide (sub16 a b % 2 = 0))
  upd f 7 (decide (sub16 a b % 2 ≠ 0))

/-- The `"0010"` (sub) arm of `cycle`. -/
def execSub (temp : Nat) (s : EmulatorState) : EmulatorState :=
  let dest := fDest temp
  let src_a := fSrcA temp
  let src_b := fSrcB temp
  let a := s.reg (src_a % 8)
  let b := s.reg (src_b % 8)
  let s := write_to_regs { s with flg := subFlags s.flg a b } (dest % 8) (sub16 a b % 256)
  let s := { s with pc := wrap16 (s.pc + 1) }
  push_log s ("sub " ++ toString (dest % 8) ++ ", " ++ toString (src_a % 8)
    ++ ", " ++ toString (src_b % 8))

/-- The flag writes shared by the bitwise/shift arms: zero/parity checks on
the result `v`, flags 2–5 forced false. -/
def bitFlags (g : Nat → Bool) (v : Nat) : Nat → Bool :=
  let f := upd g 0 (decide (v % 256 = 0))
  let f := upd f 1 (decide (v % 256 ≠ 0))
  let f := upd f 2 false
  let f := upd f 3 false
  let f := upd f 4 false
  let f := upd f 5 false
  let f := upd f 6 (decide (v % 2 = 0))
  upd f 7 (decide (v % 2 ≠ 0))

/-- The `"0011"` (and) arm of `cycle`. -/
def execAnd (temp : Nat) (s : EmulatorState) : EmulatorState :=
  let dest := fDest temp
  let src_a := fSrcA temp
  let src_b := fSrcB temp
  let v := s.reg (src_a % 8) &&& s.reg (src_b % 8)
  let s := write_to_regs { s with flg := bitFlags s.flg v } (dest % 8) (v % 256)
  let s := { s with pc := wrap16 (s.pc + 1) }
  push_log s ("and " ++ toString (dest % 8) ++ ", " ++ toString (src_a % 8)
    ++ ", " ++ toString (src_b % 8))

/-- The `"0100"` (nor) arm of `cycle` (`u16` complement of the bitwise or). -/
def execNor (temp : Nat) (s : EmulatorState) : EmulatorState :=
  let dest := fDest temp
  let src_a := fSrcA temp
  let src_b := fSrcB temp
  let v := not16 (s.reg (src_a % 8) ||| s.reg (src_b % 8))
  let s := write_to_regs { s with flg := bitFlags s.flg v } (dest % 8) (v % 256)
  let s := { s with pc := wrap16 (s.pc + 1) }
  push_log s ("nor " ++ toString (dest % 8) ++ ", " ++ toString (src_a % 8)
    ++ ", " ++ toString (src_b % 8))

/-- The `"0101"` (xor) arm of `cycle`. -/
def execXor (temp : Nat) (s : EmulatorState) : EmulatorState :=
  let dest := fDest temp
  let src_a := fSrcA temp
  let src_b := fSrcB temp
  let v := s.reg (src_a % 8) ^^^ s.reg (src_b % 8)
  let s := write_to_regs { s with flg := bitFlags s.flg v } (dest % 8) (v % 256)
  let s := { s with pc := wrap16 (s.pc + 1) }
  push_log s ("xor " ++ toString (dest % 8) ++ ", " ++ toString (src_a % 8)
    ++ ", " ++ toString (src_b % 8))

/-- The `"0110"` (rsh) arm of `cycle` (`>> 1` is division by 2). -/
def execRsh (temp : Nat) (s : EmulatorState) : EmulatorState :=
  let dest := fDest temp
  let src_a := fSrcA temp
  let v := s.reg (src_a % 8) / 2
  let s := write_to_regs { s with flg := bitFlags s.flg v } (dest % 8) (v % 256)
  let s := { s with pc := wrap16 (s.pc + 1) }
  push_log s ("rsh " ++ toString (dest % 8) ++ ", " ++ toString (src_a % 8))

/-- The CMP flag writes of the `"0111"` arm. -/
def cmpFlags (g : Nat → Bool) (a b : Nat) : Nat → Bool :=
  let f := upd g 8 (decide (a > b))
  let f := upd f 9 (decide (a ≤ b))
  let f := upd f 10 (decide (a < b))
  let f := upd f 11 (decide (a ≥ b))
  let f := upd f 12 (decide (a = b))
  let f := upd f 13 (decide (a ≠ b))
  let f := upd f 14 false
  upd f 15 true

/-- The `"0111"` (cmp) arm of `cycle` (operands read `% 256`). -/
def execCmp (temp : Nat) (s : EmulatorState) : EmulatorState :=
  let src_a := fSrcA temp
  let src_b := fSrcB temp
  let a := s.reg (src_a % 8) % 256
  let b := s.reg (src_b % 8) % 256
  let s := { s with flg := cmpFlags s.flg a b, pc := wrap16 (s.pc + 1) }
  push_log s ("cmp " ++ toString (src_a % 8) ++ ", " ++ toString (src_b % 8))

/-- The `"1000"` (imm) arm of `cycle`. -/
def execImm (temp : Nat) (s : EmulatorState) : EmulatorState :=
  let dest := fDest temp
  let imm := fImm8 temp
  let s := write_to_regs s (dest % 8) (imm % 256)
  let s := { s with pc := wrap16 (s.pc + 1) }
  push_log s ("imm " ++ toString (dest % 8) ++ ", " ++ toString (imm % 256))

/-- The `"1001"` (dml) arm of `cycle`. -/
def execDml (temp : Nat) (s : EmulatorState) : EmulatorState :=
  let dest := fDest temp
  let addr := fImm8 temp
  let s := write_to_regs s (dest % 8) (s.ram (addr % 32))
  let s := { s with pc := wrap16 (s.pc + 1) }
  push_log s ("dml " ++ toString (dest % 8) ++ ", " ++ toString (addr % 32))

/-- The `"1010"` (dms) arm of `cycle`. -/
def execDms (temp : Nat) (s : EmulatorState) : EmulatorState :=
  let src := fDest temp
  let addr := fImm8 temp
  let s := write_to_ram s (addr % 32) (s.reg (src % 8))
  let s := { s with pc := wrap16 (s.pc + 1) }
  push_log s ("dms " ++ toString (src % 8) ++ ", " ++ toString (addr % 32))

/-- The `"1011"` (iml) arm of `cycle` (the source passes `dest` unwrapped and
`write_to_regs` wraps it). -/
def execIml (temp : Nat) (s : EmulatorState) : EmulatorState :=
  let dest := fDest temp
  let ptr := fSrcA temp
  let s := write_to_regs s dest (s.ram (s.reg (ptr % 8) % 32))
  let s := { s with pc := wrap16 (s.pc + 1) }
  push_log s ("iml " ++ toString (dest % 8) ++ ", " ++ toString (ptr % 8))

/-- The `"1100"` (ims) arm of `cycle`. -/
def execIms (temp : Nat) (s : EmulatorState) : EmulatorState :=
  let src := fSrcB temp
  let ptr := fSrcA temp
  let s := write_to_ram s (s.reg (ptr % 8) % 32) (s.reg (src % 8))
  let s := { s with pc := wrap16 (s.pc + 1) }
  push_log s ("ims " ++ toString (ptr % 8) ++ ", " ++ toString (src % 8))

/-- The `"1101"` (brc) arm of `cycle`. -/
def execBrc (temp : Nat) (s : EmulatorState) : EmulatorState :=
  let cond := fDest temp
  let addr := fImm8 temp
  let s := { s with pc := if s.flg (cond % 16) then addr % 64 else wrap16 (s.pc + 1) }
  push_log s ("brc " ++ toString (cond % 16) ++ ", " ++ toString (addr % 64))

/-- The `"1110"` (ibr) arm of `cycle`. -/
def execIbr (temp : Nat) (s : EmulatorState) : EmulatorState :=
  let cond := fDest temp
  let ptr := fSrcB temp
  let s := { s with pc := if s.flg (cond % 16) then s.reg (ptr % 8) % 64 else wrap16 (s.pc + 1) }
  push_log s ("ibr " ++ toString (cond % 16) ++ ", 0, " ++ toString (ptr % 8))

/-- The `"1111"` (jmp) arm of `cycle`. -/
def execJmp (temp : Nat) (s : EmulatorState) : EmulatorState :=
  let addr := fAddr12 temp
  let s := { s with pc := addr % 64 }
  push_log s ("jmp " ++ toString (addr % 64))

/-- The defensive default arm of `cycle` (unreachable for a 16-bit word). -/
def execUnknown (s : EmulatorState) : EmulatorState :=
  push_log { s with pc := wrap16 (s.pc + 1) } "unknown opcode"

/-- `EmulatorState::cycle`: fetch `rom[pc % 64]` (recording the read), bump
the executed-instruction counter, decode the top 4 bits of the fetched word
and dispatch.  Each arm function above mirrors the corresponding `match` arm
of the source, including evaluation order (flags are computed from the
pre-write register values, flag 4 reads the just-written flag 2, the
destination register is written after the flags, then `pc += 1`, then the
trace entry is pushed). -/
def cycle (s0 : EmulatorState) : EmulatorState :=
  if opcodeOf (fetched s0) = 0 then execHalt (fetchStage s0)
  else if opcodeOf (fetched s0) = 1 then execAdd (fetched s0) (fetchStage s0)
  else if opcodeOf (fetched s0) = 2 then execSub (fetched s0) (fetchStage s0)
  else if opcodeOf (fetched s0) = 3 then execAnd (fetched s0) (fetchStage s0)
  else if opcodeOf (fetched s0) = 4 then execNor (fetched s0) (fetchStage s0)
  else if opcodeOf (fetched s0) = 5 then execXor (fetched s0) (fetchStage s0)
  else if opcodeOf (fetched s0) = 6 then execRsh (fetched s0) (fetchStage s0)
  else if opcodeOf (fetched s0) = 7 then execCmp (fetched s0) (fetchStage s0)
  else if opcodeOf (fetched s0) = 8 then execImm (fetched s0) (fetchStage s0)
  else if opcodeOf (fetched s0) = 9 then execDml (fetched s0) (fetchStage s0)
  else if opcodeOf (fetched s0) = 10 then execDms (fetched s0) (fetchStage s0)
  else if opcodeOf (fetched s0) = 11 then execIml (fetched s0) (fetchStage s0)
  else if opcodeOf (fetched s0) = 12 then execIms (fetched s0) (fetchStage s0)
  else if opcodeOf (fetched s0) = 13 then execBrc (fetched s0) (fetchStage s0)
  else if opcodeOf (fetched s0) = 14 then execIbr (fetched s0) (fetchStage s0)
  else if opcodeOf (fetched s0) = 15 then execJmp (fetched s0) (fetchStage s0)
  else execUnknown (fetchStage s0)

/-- The emulator state constructed at the top of `main`. -/
def startState : EmulatorState :=
  { rom := fun _ => 0, ram := fun _ => 0, reg := fun _ => 0, inp := fun _ => 0,
    out := fun _ => 0, flg := upd (fun _ => false) 15 true, pc := 0,
    mode := Mode.Setup, log_buffer := fun _ => "",
    executed_instructions := 0,
    current_rom_read := none, current_ram_write := none, current_reg_write := none }

/-- `char::to_digit(2)`: only '0' and '1' are digits in base 2. -/
def toDigit2 (c : Char) : Option Nat :=
  if c = '0' then some 0 else if c = '1' then some 1 else none

/-- The digit loop of Rust's `from_str_radix` for a non-negative parse on an
unsigned type with exclusive bound `mx` (checked multiply-and-add). -/
def parseDigitsPos (mx : Nat) : List Char → Nat → Option Nat
  | [], acc => some acc
  | c :: cs, acc =>
    match toDigit2 c with
    | none => none
    | some d => if acc * 2 + d < mx then parseDigitsPos mx cs (acc * 2 + d) else none

/-- The digit loop of Rust's `from_str_radix` for a '-'-signed parse on an
unsigned type (checked multiply and checked subtract, so it only succeeds on
an all-zero digit string). -/
def parseDigitsNeg (mx : Nat) : List Char → Nat → Option Nat
  | [], acc => some acc
  | c :: cs, acc =>
    match toDigit2 c with
    | none => none
    | some d =>
      if acc * 2 < mx then
        if d ≤ acc * 2 then parseDigitsNeg mx cs (acc * 2 - d) else none
      else none

/-- Rust's `uN::from_str_radix(s, 2)` for an unsigned type with exclusive
bound `mx` (`2^32` for `u32`, `2^16` for `u16`): an optional leading '+' or
'-' sign, then at least one base-2 digit, with checked arithmetic. -/
def from_str_radix (mx : Nat) (s : List Char) : Option Nat :=
  match s with
  | [] => none
  | c :: cs =>
    if c = '+' then (if cs.isEmpty then none else parseDigitsPos mx cs 0)
    else if c = '-' then (if cs.isEmpty then none else parseDigitsNeg mx cs 0)
    else parseDigitsPos mx (c :: cs) 0

/-- `str::trim`: drop leading and trailing whitespace (the source trims
Unicode whitespace; this model covers the ASCII whitespace characters). -/
def trim (l : List Char) : List Char :=
  ((l.dropWhile Char.isWhitespace).reverse.dropWhile Char.isWhitespace).reverse

/-- UTF-8 byte count of one character (Rust's `str::len` counts bytes). -/
def charBytes (c : Char) : Nat :=
  if c.val < 128 then 1 else if c.val < 2048 then 2 else if c.val < 65536 then 3 else 4

/-- UTF-8 byte length of a line, matching Rust's `str::len`. -/
def utf8Len (l : List Char) : Nat := (l.map charBytes).sum

/-- `v.split('\n').map(|x| x.trim().to_string())` of `load_from_file`. -/
def linesOf (text : List Char) : List (List Char) := (text.splitOn '\n').map trim

/-- The ROM loading loop of `load_from_file`: 16-byte trimmed lines that parse
in base 2 are written at their enumeration index (cast to `u16`, wrapped mod
64 by `write_to_rom`); other lengths are skipped; the first failing 16-byte
line logs corruption and aborts (second component `true`). -/
def load_rom_loop : List (List Char) → Nat → EmulatorState → EmulatorState × Bool
  | [], _, s => (s, false)
  | line :: rest, idx, s =>
    if utf8Len line = 16 then
      match from_str_radix 4294967296 line with
      | some p => load_rom_loop rest (idx + 1) (write_to_rom s (idx % 65536) p)
      | none => (push_log s "Rom init. corrupted", true)
    else load_rom_loop rest (idx + 1) s

/-- The RAM loading loop of `load_from_file` (8-byte lines, `u16` parse,
`write_to_ram`). -/
def load_ram_loop : List (List Char) → Nat → EmulatorState → EmulatorState × Bool
  | [], _, s => (s, false)
  | line :: rest, idx, s =>
    if utf8Len line = 8 then
      match from_str_radix 65536 line with
      | some p => load_ram_loop rest (idx + 1) (write_to_ram s (idx % 65536) p)
      | none => (push_log s "Ram init. corrupted", true)
    else load_ram_loop rest (idx + 1) s

/-- The `ram.bin` half of `load_from_file`: `none` models a failed
`fs::read_to_string` (silently ignored). -/
def load_ram_phase (ramText : Option (List Char)) (s : EmulatorState) : EmulatorState :=
  match ramText with
  | some v =>
    let r := load_ram_loop (linesOf v) 0 s
    if r.2 then r.1 else push_log (reset_last_mods r.1) "Loaded RAM preset"
  | none => s

/-- `EmulatorState::load_from_file`: `romText = none` models a failed read of
the ROM file.  On ROM corruption the function returns immediately (the `return
Ok(())` of the source), skipping the RAM phase. -/
def load_from_file (romText ramText : Option (List Char)) (rom_file_name : String)
    (s : EmulatorState) : EmulatorState :=
  match romText with
  | some v =>
    let r := load_rom_loop (linesOf v) 0 s
    if r.2 then r.1
    else load_ram_phase ramText (push_log (reset_last_mods r.1) ("Loaded " ++ rom_file_name))
  | none => load_ram_phase ramText (push_log s "Program not found")

/-- Representation invariant of the stores: every value held in a fixed-width
field is within its width.  Maintained by construction, since every write in
the source truncates. -/
def WF (s : EmulatorState) : Prop :=
  (∀ i, i < 64 → s.rom i < 65536) ∧ (∀ i, i < 32 → s.ram i < 256) ∧
    (∀ i, i < 8 → s.reg i < 256) ∧ s.pc < 65536

/-- States reachable by the command surface of `main`: the starting state,
resets, loads, the Setup-mode run/step commands, the Automatic→ManualStep
demotion, and `cycle` (invoked only in ManualStep or Automatic mode). -/
inductive Reachable : EmulatorState → Prop where
  | start : Reachable startState
  | prog_reset {s} : Reachable s → Reachable (program_reset s)
  | full {s} : Reachable s → Reachable (full_reset s)
  | load {s} (rt rat : Option (List Char)) (name : String) :
      Reachable s → Reachable (load_from_file rt rat name s)
  | run {s} : Reachable s → s.mode = Mode.Setup → Reachable { s with mode := Mode.Automatic 0 }
  | manual {s} : Reachable s → s.mode = Mode.Setup → Reachable { s with mode := Mode.ManualStep }
  | demote {s} (r : Nat) : Reachable s → s.mode = Mode.Automatic r →
      Reachable { s with mode := Mode.ManualStep }
  | step {s} : Reachable s → (s.mode = Mode.ManualStep ∨ ∃ r, s.mode = Mode.Automatic r) →
      Reachable (cycle s)

/-! Helper lemmas. -/

theorem cycle_cases (s : EmulatorState) (P : EmulatorState → Prop)
    (h0 : opcodeOf (fetched s) = 0 → P (execHalt (fetchStage s)))
    (h1 : opcodeOf (fetched s) = 1 → P (execAdd (fetched s) (fetchStage s)))
    (h2 : opcodeOf (fetched s) = 2 → P (execSub (fetched s) (fetchStage s)))
    (h3 : opcodeOf (fetched s) = 3 → P (execAnd (fetched s) (fetchStage s)))
    (h4 : opcodeOf (fetched s) = 4 → P (execNor (fetched s) (fetchStage s)))
    (h5 : opcodeOf (fetched s) = 5 → P (execXor (fetched s) (fetchStage s)))
    (h6 : opcodeOf (fetched s) = 6 → P (execRsh (fetched s) (fetchStage s)))
    (h7 : opcodeOf (fetched s) = 7 → P (execCmp (fetched s) (fetchStage s)))
    (h8 : opcodeOf (fetched s) = 8 → P (execImm (fetched s) (fetchStage s)))
    (h9 : opcodeOf (fetched s) = 9 → P (execDml (fetched s) (fetchStage s)))
    (h10 : opcodeOf (fetched s) = 10 → P (execDms (fetched s) (fetchStage s)))
    (h11 : opcodeOf (fetched s) = 11 → P (execIml (fetched s) (fetchStage s)))
    (h12 : opcodeOf (fetched s) = 12 → P (execIms (fetched s) (fetchStage s)))
    (h13 : opcodeOf (fetched s) = 13 → P (execBrc (fetched s) (fetchStage s)))
    (h14 : opcodeOf (fetched s) = 14 → P (execIbr (fetched s) (fetchStage s)))
    (h15 : opcodeOf (fetched s) = 15 → P (execJmp (fetched s) (fetchStage s)))
    (hu : 16 ≤ opcodeOf (fetched s) → P (execUnknown (fetchStage s))) :
    P (cycle s) := by
  unfold cycle
  by_cases g0 : opcodeOf (fetched s) = 0
  · rw [if_pos g0]; exact h0 g0
  rw [if_neg g0]
  by_cases g1 : opcodeOf (fetched s) = 1
  · rw [if_pos g1]; exact h1 g1
  rw [if_neg g1]
  by_cases g2 : opcodeOf (fetched s) = 2
  · rw [if_pos g2]; exact h2 g2
  rw [if_neg g2]
  by_cases g3 : opcodeOf (fetched s) = 3
  · rw [if_pos g3]; exact h3 g3
  rw [if_neg g3]
  by_cases g4 : opcodeOf (fetched s) = 4
  · rw [if_pos g4]; exact h4 g4
  rw [if_neg g4]
  by_cases g5 : opcodeOf (fetched s) = 5
  · rw [if_pos g5]; exact h5 g5
  rw [if_neg g5]
  by_cases g6 : opcodeOf (fetched s) = 6
  · rw [if_pos g6]; exact h6 g6
  rw [if_neg g6]
  by_cases g7 : opcodeOf (fetched s) = 7
  · rw [if_pos g7]; exact h7 g7
  rw [if_neg g7]
  by_cases g8 : opcodeOf (fetched s) = 8
  · rw [if_pos g8]; exact h8 g8
  rw [if_neg g8]
  by_cases g9 : opcodeOf (fetched s) = 9
  · rw [if_pos g9]; exact h9 g9
  rw [if_neg g9]
  by_cases g10 : opcodeOf (fetched s) = 10
  · rw [if_pos g10]; exact h10 g10
  rw [if_neg g10]
  by_cases g11 : opcodeOf (fetched s) = 11
  · rw [if_pos g11]; exact h11 g11
  rw [if_neg g11]
  by_cases g12 : opcodeOf (fetched s) = 12
  · rw [if_pos g12]; exact h12 g12
  rw [if_neg g12]
  by_cases g13 : opcodeOf (fetched s) = 13
  · rw [if_pos g13]; exact h13 g13
  rw [if_neg g13]
  by_cases g14 : opcodeOf (fetched s) = 14
  · rw [if_pos g14]; exact h14 g14
  rw [if_neg g14]
  by_cases g15 : opcodeOf (fetched s) = 15
  · rw [if_pos g15]; exact h15 g15
  rw [if_neg g15]
  exact hu (by omega)

theorem cycle_executed (s : EmulatorState) :
    (cycle s).executed_instructions = s.executed_instructions + 1 := by
  refine cycle_cases s (fun t => t.executed_instructions = s.executed_instructions + 1)
    ?_ ?_ ?_ ?_ ?_ ?_ ?_ ?_ ?_ ?_ ?_ ?_ ?_ ?_ ?_ ?_ ?_ <;> exact fun _ => rfl

theorem cycle_mode (s : EmulatorState) :
    (cycle s).mode = if opcodeOf (fetched s) = 0 then Mode.Setup else s.mode := by
  by_cases h : opcodeOf (fetched s) = 0
  · rw [if_pos h]
    refine cycle_cases s (fun t => t.mode = Mode.Setup) ?_ ?_ ?_ ?_ ?_ ?_ ?_ ?_ ?_ ?_ ?_ ?_ ?_ ?_ ?_ ?_ ?_ <;>
      exact fun g => by first | rfl | omega
  · rw [if_neg h]
    refine cycle_cases s (fun t => t.mode = s.mode) ?_ ?_ ?_ ?_ ?_ ?_ ?_ ?_ ?_ ?_ ?_ ?_ ?_ ?_ ?_ ?_ ?_ <;>
      exact fun g => by first | rfl | omega

theorem upd_self (f : Nat → α) (i : Nat) (v : α) : upd f i v i = v := by simp [upd]

theorem upd_ne (f : Nat → α) {i j : Nat} (v : α) (h : j ≠ i) : upd f i v j = f j := by
  simp [upd, h]

theorem wrap16_mod_256 (n : Nat) : wrap16 n % 256 = n % 256 :=
  Nat.mod_mod_of_dvd n (by norm_num)

theorem wrap16_mod_2 (n : Nat) : wrap16 n % 2 = n % 2 :=
  Nat.mod_mod_of_dvd n (by norm_num)

theorem wrap16_small {n : Nat} (h : n < 65536) : wrap16 n = n := Nat.mod_eq_of_lt h

theorem and_two_pow_ne_zero (n k : Nat) : decide (n &&& 2 ^ k ≠ 0) = n.testBit k := by
  cases h : n.testBit k <;>
    simp [Nat.and_two_pow, h, Nat.pos_pow_of_pos, Nat.pos_iff_ne_zero]

theorem and_two_pow_eq_zero (n k : Nat) : decide (n &&& 2 ^ k = 0) = !n.testBit k := by
  cases h : n.testBit k <;>
    simp [Nat.and_two_pow, h, Nat.pos_pow_of_pos, Nat.pos_iff_ne_zero]

theorem fetchStage_rom (s : EmulatorState) : (fetchStage s).rom = s.rom := rfl

theorem fetchStage_ram (s : EmulatorState) : (fetchStage s).ram = s.ram := rfl

theorem fetchStage_reg (s : EmulatorState) : (fetchStage s).reg = s.reg := rfl

theorem fetchStage_inp (s : EmulatorState) : (fetchStage s).inp = s.inp := rfl

theorem fetchStage_out (s : EmulatorState) : (fetchStage s).out = s.out := rfl

theorem fetchStage_flg (s : EmulatorState) : (fetchStage s).flg = s.flg := rfl

theorem fetchStage_pc (s : EmulatorState) : (fetchStage s).pc = s.pc := rfl

theorem fetchStage_mode (s : EmulatorState) : (fetchStage s).mode = s.mode := rfl

theorem execAdd_reg (temp : Nat) (st : EmulatorState) :
    (execAdd temp st).reg = upd st.reg (fDest temp % 8 % 8)
      (wrap16 (st.reg (fSrcA temp % 8) + st.reg (fSrcB temp % 8)) % 256 % 256) := rfl

theorem execAdd_flg (temp : Nat) (st : EmulatorState) :
    (execAdd temp st).flg =
      addFlags st.flg (st.reg (fSrcA temp % 8)) (st.reg (fSrcB temp % 8)) := rfl

theorem execAdd_pc (temp : Nat) (st : EmulatorState) :
    (execAdd temp st).pc = wrap16 (st.pc + 1) := rfl

theorem addFlags_0 (g : Nat → Bool) (a b : Nat) :
    addFlags g a b 0 = decide (wrap16 (a + b) % 256 = 0) := rfl

theorem addFlags_1 (g : Nat → Bool) (a b : Nat) :
    addFlags g a b 1 = decide (wrap16 (a + b) % 256 ≠ 0) := rfl

theorem addFlags_2 (g : Nat → Bool) (a b : Nat) :
    addFlags g a b 2 = decide ((a % 256 + b % 256) &&& 256 ≠ 0) := rfl

theorem addFlags_3 (g : Nat → Bool) (a b : Nat) :
    addFlags g a b 3 = decide ((a % 256 + b % 256) &&& 256 = 0) := rfl

theorem addFlags_4 (g : Nat → Bool) (a b : Nat) :
    addFlags g a b 4 = xor (decide ((a % 128 + b % 128) &&& 128 ≠ 0))
      (decide ((a % 256 + b % 256) &&& 256 ≠ 0)) := rfl

theorem addFlags_5 (g : Nat → Bool) (a b : Nat) :
    addFlags g a b 5 = ! addFlags g a b 4 := rfl

theorem addFlags_6 (g : Nat → Bool) (a b : Nat) :
    addFlags g a b 6 = decide (wrap16 (a + b) % 2 = 0) := rfl

theorem addFlags_7 (g : Nat → Bool) (a b : Nat) :
    addFlags g a b 7 = decide (wrap16 (a + b) % 2 ≠ 0) := rfl

theorem cycle_opcode1 (s : EmulatorState) (hop : opcodeOf (fetched s) = 1) :
    cycle s = execAdd (fetched s) (fetchStage s) := by
  unfold cycle
  rw [hop]
  norm_num

/-- C1: In a ManualStep or Automatic state whose fetched ROM word has opcode
0001 (ADD), `cycle` writes `reg[dest % 8] = (reg[a % 8] + reg[b % 8]) % 256`,
advances `pc` by 1 (`u16` increment), and sets the flags per the widened-sum
rule: flag 0 iff the truncated sum is zero, flag 1 its negation, flag 2 = bit
8 of the 9-bit sum, flag 3 its negation, flag 4 = bit 7 of the 8-bit sum of
the low 7 bits of each operand XORed with flag 2, flag 5 its negation, flag 6
iff the sum is even, flag 7 its negation. -/
theorem add_cycle_spec (s : EmulatorState) (a b : Nat)
    (hmode : s.mode = Mode.ManualStep ∨ ∃ r, s.mode = Mode.Automatic r)
    (hwf : WF s)
    (hop : opcodeOf (fetched s) = 1)
    (ha : a = s.reg (fSrcA (fetched s) % 8))
    (hb : b = s.reg (fSrcB (fetched s) % 8)) :
    (cycle s).reg (fDest (fetched s) % 8) = (a + b) % 256 ∧
    (cycle s).pc = (s.pc + 1) % 65536 ∧
    (cycle s).flg 0 = decide ((a + b) % 256 = 0) ∧
    (cycle s).flg 1 = !decide ((a + b) % 256 = 0) ∧
    (cycle s).flg 2 = (a + b).testBit 8 ∧
    (cycle s).flg 3 = !(a + b).testBit 8 ∧
    (cycle s).flg 4 = xor ((a % 128 + b % 128).testBit 7) ((a + b).testBit 8) ∧
    (cycle s).flg 5 = !(cycle s).flg 4 ∧
    (cycle s).flg 6 = decide ((a + b) % 2 = 0) ∧
    (cycle s).flg 7 = !decide ((a + b) % 2 = 0) := by
  obtain ⟨hrom, hram, hreg, hpc⟩ := hwf
  have ha' : a < 256 := ha ▸ hreg _ (Nat.mod_lt _ (by norm_num))
  have hb' : b < 256 := hb ▸ hreg _ (Nat.mod_lt _ (by norm_num))
  have hab : a + b < 65536 := by omega
  have hmoda : a % 256 = a := Nat.mod_eq_of_lt ha'
  have hmodb : b % 256 = b := Nat.mod_eq_of_lt hb'
  rw [cycle_opcode1 s hop]
  simp only [execAdd_reg, execAdd_pc, execAdd_flg, fetchStage_reg, fetchStage_pc, fetchStage_flg]
  rw [← ha, ← hb]
  simp only [addFlags_5, addFlags_0, addFlags_1, addFlags_2, addFlags_3, addFlags_4, addFlags_6,
    addFlags_7]
  rw [Nat.mod_mod_of_dvd (fDest (fetched s)) dvd_rfl, upd_self]
  rw [wrap16_small hab, Nat.mod_mod_of_dvd (a + b) dvd_rfl, hmoda, hmodb]
  simp only [show (256 : Nat) = 2 ^ 8 from by norm_num, show (128 : Nat) = 2 ^ 7 from by norm_num,
    and_two_pow_ne_zero, and_two_pow_eq_zero]
  simp [decide_not]
  refine ⟨rfl, ?_⟩
  rcases Nat.mod_two_eq_zero_or_one (a + b) with h | h <;> simp [h]

/-- Concrete state for the C1 witness: ROM word 4387 = 0x1123 (ADD r1, r2, r3),
registers r2 = 200, r3 = 100, ManualStep mode. -/
def addWitnessState : EmulatorState :=
  { startState with rom := upd startState.rom 0 4387,
                    reg := upd (upd (fun _ => 0) 2 200) 3 100,
                    mode := Mode.ManualStep }

theorem add_cycle_spec_witness :
    (cycle addWitnessState).reg 1 = 44 ∧
    (cycle addWitnessState).pc = 1 ∧
    (cycle addWitnessState).flg 0 = false ∧
    (cycle addWitnessState).flg 1 = true ∧
    (cycle addWitnessState).flg 2 = true ∧
    (cycle addWitnessState).flg 3 = false ∧
    (cycle addWitnessState).flg 4 = false ∧
    (cycle addWitnessState).flg 5 = true ∧
    (cycle addWitnessState).flg 6 = true ∧
    (cycle addWitnessState).flg 7 = false :=
  add_cycle_spec addWitnessState 200 100 (Or.inl rfl)
    ⟨by decide, by decide, by decide, by decide⟩ (by decide) (by decide) (by decide)
theorem cycle_opcode0 (s : EmulatorState) (hop : opcodeOf (fetched s) = 0) :
    cycle s = execHalt (fetchStage s) := by
  unfold cycle
  rw [if_pos hop]

theorem cycle_opcode2 (s : EmulatorState) (hop : opcodeOf (fetched s) = 2) :
    cycle s = execSub (fetched s) (fetchStage s) := by
  unfold cycle
  rw [hop]
  norm_num

theorem cycle_opcode3 (s : EmulatorState) (hop : opcodeOf (fetched s) = 3) :
    cycle s = execAnd (fetched s) (fetchStage s) := by
  unfold cycle
  rw [hop]
  norm_num

theorem cycle_opcode4 (s : EmulatorState) (hop : opcodeOf (fetched s) = 4) :
    cycle s = execNor (fetched s) (fetchStage s) := by
  unfold cycle
  rw [hop]
  norm_num

theorem cycle_opcode5 (s : EmulatorState) (hop : opcodeOf (fetched s) = 5) :
    cycle s = execXor (fetched s) (fetchStage s) := by
  unfold cycle
  rw [hop]
  norm_num

theorem cycle_opcode6 (s : EmulatorState) (hop : opcodeOf (fetched s) = 6) :
    cycle s = execRsh (fetched s) (fetchStage s) := by
  unfold cycle
  rw [hop]
  norm_num

theorem cycle_opcode7 (s : EmulatorState) (hop : opcodeOf (fetched s) = 7) :
    cycle s = execCmp (fetched s) (fetchStage s) := by
  unfold cycle
  rw [hop]
  norm_num

theorem cycle_opcode8 (s : EmulatorState) (hop : opcodeOf (fetched s) = 8) :
    cycle s = execImm (fetched s) (fetchStage s) := by
  unfold cycle
  rw [hop]
  norm_num

theorem cycle_opcode9 (s : EmulatorState) (hop : opcodeOf (fetched s) = 9) :
    cycle s = execDml (fetched s) (fetchStage s) := by
  unfold cycle
  rw [hop]
  norm_num

theorem cycle_opcode10 (s : EmulatorState) (hop : opcodeOf (fetched s) = 10) :
    cycle s = execDms (fetched s) (fetchStage s) := by
  unfold cycle
  rw [hop]
  norm_num

theorem cycle_opcode11 (s : EmulatorState) (hop : opcodeOf (fetched s) = 11) :
    cycle s = execIml (fetched s) (fetchStage s) := by
  unfold cycle
  rw [hop]
  norm_num

theorem cycle_opcode12 (s : EmulatorState) (hop : opcodeOf (fetched s) = 12) :
    cycle s = execIms (fetched s) (fetchStage s) := by
  unfold cycle
  rw [hop]
  norm_num

theorem cycle_opcode13 (s : EmulatorState) (hop : opcodeOf (fetched s) = 13) :
    cycle s = execBrc (fetched s) (fetchStage s) := by
  unfold cycle
  rw [hop]
  norm_num

theorem cycle_opcode14 (s : EmulatorState) (hop : opcodeOf (fetched s) = 14) :
    cycle s = execIbr (fetched s) (fetchStage s) := by
  unfold cycle
  rw [hop]
  norm_num

theorem cycle_opcode15 (s : EmulatorState) (hop : opcodeOf (fetched s) = 15) :
    cycle s = execJmp (fetched s) (fetchStage s) := by
  unfold cycle
  rw [hop]
  norm_num

theorem cycle_opcode_unknown (s : EmulatorState) (hop : 16 ≤ opcodeOf (fetched s)) :
    cycle s = execUnknown (fetchStage s) := by
  refine cycle_cases s (fun t => t = execUnknown (fetchStage s)) ?_ ?_ ?_ ?_ ?_ ?_ ?_ ?_ ?_ ?_
    ?_ ?_ ?_ ?_ ?_ ?_ (fun _ => rfl) <;> exact fun h => by omega

theorem addFlags_high (g : Nat → Bool) (a b : Nat) {j : Nat} (h : 8 ≤ j) :
    addFlags g a b j = g j := by
  simp only [addFlags]
  rw [upd_ne _ _ (by omega), upd_ne _ _ (by omega), upd_ne _ _ (by omega),
    upd_ne _ _ (by omega), upd_ne _ _ (by omega), upd_ne _ _ (by omega),
    upd_ne _ _ (by omega), upd_ne _ _ (by omega)]

theorem subFlags_high (g : Nat → Bool) (a b : Nat) {j : Nat} (h : 8 ≤ j) :
    subFlags g a b j = g j := by
  simp only [subFlags]
  rw [upd_ne _ _ (by omega), upd_ne _ _ (by omega), upd_ne _ _ (by omega),
    upd_ne _ _ (by omega), upd_ne _ _ (by omega), upd_ne _ _ (by omega),
    upd_ne _ _ (by omega), upd_ne _ _ (by omega)]

theorem bitFlags_high (g : Nat → Bool) (v : Nat) {j : Nat} (h : 8 ≤ j) :
    bitFlags g v j = g j := by
  simp only [bitFlags]
  rw [upd_ne _ _ (by omega), upd_ne _ _ (by omega), upd_ne _ _ (by omega),
    upd_ne _ _ (by omega), upd_ne _ _ (by omega), upd_ne _ _ (by omega),
    upd_ne _ _ (by omega), upd_ne _ _ (by omega)]

theorem cmpFlags_low (g : Nat → Bool) (a b : Nat) {j : Nat} (h : j < 8) :
    cmpFlags g a b j = g j := by
  simp only [cmpFlags]
  rw [upd_ne _ _ (by omega), upd_ne _ _ (by omega), upd_ne _ _ (by omega),
    upd_ne _ _ (by omega), upd_ne _ _ (by omega), upd_ne _ _ (by omega),
    upd_ne _ _ (by omega), upd_ne _ _ (by omega)]

theorem subFlags_0 (g : Nat → Bool) (a b : Nat) :
    subFlags g a b 0 = decide (sub16 a b % 256 = 0) := rfl

theorem subFlags_1 (g : Nat → Bool) (a b : Nat) :
    subFlags g a b 1 = decide (sub16 a b % 256 ≠ 0) := rfl

theorem subFlags_2 (g : Nat → Bool) (a b : Nat) :
    subFlags g a b 2 = decide (sub16 (a % 256) (b % 256) &&& 256 ≠ 0) := rfl

theorem subFlags_3 (g : Nat → Bool) (a b : Nat) :
    subFlags g a b 3 = decide (sub16 (a % 256) (b % 256) &&& 256 = 0) := rfl

theorem subFlags_4 (g : Nat → Bool) (a b : Nat) :
    subFlags g a b 4 = xor (decide (sub16 (a % 128) (b % 128) &&& 128 ≠ 0))
      (decide (sub16 (a % 256) (b % 256) &&& 256 ≠ 0)) := rfl

theorem subFlags_5 (g : Nat → Bool) (a b : Nat) :
    subFlags g a b 5 = ! subFlags g a b 4 := rfl

theorem subFlags_6 (g : Nat → Bool) (a b : Nat) :
    subFlags g a b 6 = decide (sub16 a b % 2 = 0) := rfl

theorem subFlags_7 (g : Nat → Bool) (a b : Nat) :
    subFlags g a b 7 = decide (sub16 a b % 2 ≠ 0) := rfl

theorem cmpFlags_8 (g : Nat → Bool) (a b : Nat) : cmpFlags g a b 8 = decide (a > b) := rfl

theorem cmpFlags_9 (g : Nat → Bool) (a b : Nat) : cmpFlags g a b 9 = decide (a ≤ b) := rfl

theorem cmpFlags_10 (g : Nat → Bool) (a b : Nat) : cmpFlags g a b 10 = decide (a < b) := rfl

theorem cmpFlags_11 (g : Nat → Bool) (a b : Nat) : cmpFlags g a b 11 = decide (a ≥ b) := rfl

theorem cmpFlags_12 (g : Nat → Bool) (a b : Nat) : cmpFlags g a b 12 = decide (a = b) := rfl

theorem cmpFlags_13 (g : Nat → Bool) (a b : Nat) : cmpFlags g a b 13 = decide (a ≠ b) := rfl

theorem cmpFlags_14 (g : Nat → Bool) (a b : Nat) : cmpFlags g a b 14 = false := rfl

theorem cmpFlags_15 (g : Nat → Bool) (a b : Nat) : cmpFlags g a b 15 = true := rfl

theorem execSub_reg (temp : Nat) (st : EmulatorState) :
    (execSub temp st).reg = upd st.reg (fDest temp % 8 % 8)
      (sub16 (st.reg (fSrcA temp % 8)) (st.reg (fSrcB temp % 8)) % 256 % 256) := rfl

theorem execSub_flg (temp : Nat) (st : EmulatorState) :
    (execSub temp st).flg =
      subFlags st.flg (st.reg (fSrcA temp % 8)) (st.reg (fSrcB temp % 8)) := rfl

theorem execSub_pc (temp : Nat) (st : EmulatorState) :
    (execSub temp st).pc = wrap16 (st.pc + 1) := rfl

theorem execAnd_reg (temp : Nat) (st : EmulatorState) :
    (execAnd temp st).reg = upd st.reg (fDest temp % 8 % 8)
      ((st.reg (fSrcA temp % 8) &&& st.reg (fSrcB temp % 8)) % 256 % 256) := rfl

theorem execAnd_flg (temp : Nat) (st : EmulatorState) :
    (execAnd temp st).flg =
      bitFlags st.flg (st.reg (fSrcA temp % 8) &&& st.reg (fSrcB temp % 8)) := rfl

theorem execNor_reg (temp : Nat) (st : EmulatorState) :
    (execNor temp st).reg = upd st.reg (fDest temp % 8 % 8)
      (not16 (st.reg (fSrcA temp % 8) ||| st.reg (fSrcB temp % 8)) % 256 % 256) := rfl

theorem execNor_flg (temp : Nat) (st : EmulatorState) :
    (execNor temp st).flg =
      bitFlags st.flg (not16 (st.reg (fSrcA temp % 8) ||| st.reg (fSrcB temp % 8))) := rfl

theorem execXor_reg (temp : Nat) (st : EmulatorState) :
    (execXor temp st).reg = upd st.reg (fDest temp % 8 % 8)
      ((st.reg (fSrcA temp % 8) ^^^ st.reg (fSrcB temp % 8)) % 256 % 256) := rfl

theorem execXor_flg (temp : Nat) (st : EmulatorState) :
    (execXor temp st).flg =
      bitFlags st.flg (st.reg (fSrcA temp % 8) ^^^ st.reg (fSrcB temp % 8)) := rfl

theorem execRsh_reg (temp : Nat) (st : EmulatorState) :
    (execRsh temp st).reg = upd st.reg (fDest temp % 8 % 8)
      (st.reg (fSrcA temp % 8) / 2 % 256 % 256) := rfl

theorem execRsh_flg (temp : Nat) (st : EmulatorState) :
    (execRsh temp st).flg = bitFlags st.flg (st.reg (fSrcA temp % 8) / 2) := rfl

theorem execCmp_reg (temp : Nat) (st : EmulatorState) : (execCmp temp st).reg = st.reg := rfl

theorem execCmp_ram (temp : Nat) (st : EmulatorState) : (execCmp temp st).ram = st.ram := rfl

theorem execCmp_inp (temp : Nat) (st : EmulatorState) : (execCmp temp st).inp = st.inp := rfl

theorem execCmp_out (temp : Nat) (st : EmulatorState) : (execCmp temp st).out = st.out := rfl

theorem execCmp_pc (temp : Nat) (st : EmulatorState) :
    (execCmp temp st).pc = wrap16 (st.pc + 1) := rfl

theorem execCmp_flg (temp : Nat) (st : EmulatorState) :
    (execCmp temp st).flg = cmpFlags st.flg (st.reg (fSrcA temp % 8) % 256)
      (st.reg (fSrcB temp % 8) % 256) := rfl

theorem execHalt_pc (st : EmulatorState) : (execHalt st).pc = wrap16 (st.pc + 1) := rfl

theorem execHalt_mode (st : EmulatorState) : (execHalt st).mode = Mode.Setup := rfl

theorem execBrc_pc (temp : Nat) (st : EmulatorState) :
    (execBrc temp st).pc =
      if st.flg (fDest temp % 16) then fImm8 temp % 64 else wrap16 (st.pc + 1) := rfl

theorem execIbr_pc (temp : Nat) (st : EmulatorState) :
    (execIbr temp st).pc =
      if st.flg (fDest temp % 16) then st.reg (fSrcB temp % 8) % 64
      else wrap16 (st.pc + 1) := rfl

theorem execJmp_pc (temp : Nat) (st : EmulatorState) :
    (execJmp temp st).pc = fAddr12 temp % 64 := rfl

/-- C4: In a ManualStep or Automatic state whose fetched opcode is SUB (0010),
`cycle` is total (the embedding is a total function mirroring the release-mode
wrapping semantics of the source's `u16` arithmetic, which never traps): even
when `reg[a] < reg[b]` the subtraction is modular, `reg[dest mod 8]` receives
the mathematical `(reg[a] - reg[b]) mod 256`, and `pc` advances by 1. -/
theorem sub_cycle_spec (s : EmulatorState) (a b : Nat)
    (hmode : s.mode = Mode.ManualStep ∨ ∃ r, s.mode = Mode.Automatic r)
    (hwf : WF s)
    (hop : opcodeOf (fetched s) = 2)
    (ha : a = s.reg (fSrcA (fetched s) % 8))
    (hb : b = s.reg (fSrcB (fetched s) % 8)) :
    ((cycle s).reg (fDest (fetched s) % 8) : Int) = ((a : Int) - (b : Int)) % 256 ∧
    (cycle s).pc = (s.pc + 1) % 65536 := by
  obtain ⟨hrom, hram, hreg, hpc⟩ := hwf
  have ha' : a < 256 := ha ▸ hreg _ (Nat.mod_lt _ (by norm_num))
  have hb' : b < 256 := hb ▸ hreg _ (Nat.mod_lt _ (by norm_num))
  rw [cycle_opcode2 s hop]
  simp only [execSub_reg, execSub_pc, fetchStage_reg, fetchStage_pc]
  rw [← ha, ← hb]
  rw [Nat.mod_mod_of_dvd (fDest (fetched s)) dvd_rfl, upd_self]
  refine ⟨?_, rfl⟩
  simp only [sub16]
  omega

/-- Concrete state for the C4 witness: ROM word 8483 = 0x2123 (SUB r1, r2, r3),
registers r2 = 100, r3 = 200 (an underflowing subtraction), ManualStep mode. -/
def subWitnessState : EmulatorState :=
  { startState with rom := upd startState.rom 0 8483,
                    reg := upd (upd (fun _ => 0) 2 100) 3 200,
                    mode := Mode.ManualStep }

theorem sub_cycle_spec_witness :
    ((cycle subWitnessState).reg 1 : Int) = ((100 : Int) - (200 : Int)) % 256 ∧
    (cycle subWitnessState).pc = 1 :=
  sub_cycle_spec subWitnessState 100 200 (Or.inl rfl)
    ⟨by decide, by decide, by decide, by decide⟩ (by decide) (by decide) (by decide)

/-- C3: In a ManualStep or Automatic state whose fetched opcode is CMP (0111),
with `a = reg[srcA mod 8]` and `b = reg[srcB mod 8]` (8-bit register values),
`cycle` sets flag 8 = a > b, flag 9 = a ≤ b, flag 10 = a < b, flag 11 =
a ≥ b, flag 12 = a == b, flag 13 = a != b, flag 14 = false, flag 15 = true,
and advances `pc` by 1. -/
theorem cmp_cycle_spec (s : EmulatorState) (a b : Nat)
    (hmode : s.mode = Mode.ManualStep ∨ ∃ r, s.mode = Mode.Automatic r)
    (hwf : WF s)
    (hop : opcodeOf (fetched s) = 7)
    (ha : a = s.reg (fSrcA (fetched s) % 8))
    (hb : b = s.reg (fSrcB (fetched s) % 8)) :
    (cycle s).flg 8 = decide (a > b) ∧
    (cycle s).flg 9 = decide (a ≤ b) ∧
    (cycle s).flg 10 = decide (a < b) ∧
    (cycle s).flg 11 = decide (a ≥ b) ∧
    (cycle s).flg 12 = decide (a = b) ∧
    (cycle s).flg 13 = decide (a ≠ b) ∧
    (cycle s).flg 14 = false ∧
    (cycle s).flg 15 = true ∧
    (cycle s).pc = (s.pc + 1) % 65536 := by
  obtain ⟨hrom, hram, hreg, hpc⟩ := hwf
  have ha' : a < 256 := ha ▸ hreg _ (Nat.mod_lt _ (by norm_num))
  have hb' : b < 256 := hb ▸ hreg _ (Nat.mod_lt _ (by norm_num))
  rw [cycle_opcode7 s hop]
  simp only [execCmp_flg, execCmp_pc, fetchStage_reg, fetchStage_pc]
  rw [← ha, ← hb, Nat.mod_eq_of_lt ha', Nat.mod_eq_of_lt hb']
  exact ⟨cmpFlags_8 _ _ _, cmpFlags_9 _ _ _, cmpFlags_10 _ _ _, cmpFlags_11 _ _ _,
    cmpFlags_12 _ _ _, cmpFlags_13 _ _ _, cmpFlags_14 _ _ _, cmpFlags_15 _ _ _, rfl⟩

/-- Concrete state for the C3 witness: ROM word 28707 = 0x7023 (CMP r2, r3),
registers r2 = 5, r3 = 9, ManualStep mode. -/
def cmpWitnessState : EmulatorState :=
  { startState with rom := upd startState.rom 0 28707,
                    reg := upd (upd (fun _ => 0) 2 5) 3 9,
                    mode := Mode.ManualStep }

theorem cmp_cycle_spec_witness :
    (cycle cmpWitnessState).flg 8 = false ∧
    (cycle cmpWitnessState).flg 9 = true ∧
    (cycle cmpWitnessState).flg 10 = true ∧
    (cycle cmpWitnessState).flg 11 = false ∧
    (cycle cmpWitnessState).flg 12 = false ∧
    (cycle cmpWitnessState).flg 13 = true ∧
    (cycle cmpWitnessState).flg 14 = false ∧
    (cycle cmpWitnessState).flg 15 = true ∧
    (cycle cmpWitnessState).pc = 1 :=
  cmp_cycle_spec cmpWitnessState 5 9 (Or.inl rfl)
    ⟨by decide, by decide, by decide, by decide⟩ (by decide) (by decide) (by decide)

/-- C2: In a ManualStep or Automatic state, a `cycle` whose opcode is one of
ADD/SUB/AND/NOR/XOR/RSH leaves RAM, every register other than
`reg[dest mod 8]`, the inputs, the outputs, and flags 8–15 unchanged; and a
`cycle` whose opcode is CMP (0111) leaves all registers, RAM, inputs, outputs
and flags 0–7 unchanged. -/
theorem alu_cmp_frame (s : EmulatorState)
    (hmode : s.mode = Mode.ManualStep ∨ ∃ r, s.mode = Mode.Automatic r) :
    (opcodeOf (fetched s) ∈ [1, 2, 3, 4, 5, 6] →
      (cycle s).ram = s.ram ∧ (cycle s).inp = s.inp ∧ (cycle s).out = s.out ∧
      (∀ i, i ≠ fDest (fetched s) % 8 → (cycle s).reg i = s.reg i) ∧
      (∀ j, 8 ≤ j → j < 16 → (cycle s).flg j = s.flg j)) ∧
    (opcodeOf (fetched s) = 7 →
      (cycle s).reg = s.reg ∧ (cycle s).ram = s.ram ∧ (cycle s).inp = s.inp ∧
      (cycle s).out = s.out ∧ (∀ j, j < 8 → (cycle s).flg j = s.flg j)) := by
  constructor
  · intro hmem
    simp only [List.mem_cons, List.not_mem_nil, or_false] at hmem
    rcases hmem with hop | hop | hop | hop | hop | hop
    · rw [cycle_opcode1 s hop]
      refine ⟨rfl, rfl, rfl, fun i hi => ?_, fun j h8 _ => ?_⟩
      · rw [execAdd_reg, fetchStage_reg, Nat.mod_mod_of_dvd _ dvd_rfl, upd_ne _ _ hi]
      · rw [execAdd_flg, addFlags_high _ _ _ h8, fetchStage_flg]
    · rw [cycle_opcode2 s hop]
      refine ⟨rfl, rfl, rfl, fun i hi => ?_, fun j h8 _ => ?_⟩
      · rw [execSub_reg, fetchStage_reg, Nat.mod_mod_of_dvd _ dvd_rfl, upd_ne _ _ hi]
      · rw [execSub_flg, subFlags_high _ _ _ h8, fetchStage_flg]
    · rw [cycle_opcode3 s hop]
      refine ⟨rfl, rfl, rfl, fun i hi => ?_, fun j h8 _ => ?_⟩
      · rw [execAnd_reg, fetchStage_reg, Nat.mod_mod_of_dvd _ dvd_rfl, upd_ne _ _ hi]
      · rw [execAnd_flg, bitFlags_high _ _ (by omega), fetchStage_flg]
    · rw [cycle_opcode4 s hop]
      refine ⟨rfl, rfl, rfl, fun i hi => ?_, fun j h8 _ => ?_⟩
      · rw [execNor_reg, fetchStage_reg, Nat.mod_mod_of_dvd _ dvd_rfl, upd_ne _ _ hi]
      · rw [execNor_flg, bitFlags_high _ _ (by omega), fetchStage_flg]
    · rw [cycle_opcode5 s hop]
      refine ⟨rfl, rfl, rfl, fun i hi => ?_, fun j h8 _ => ?_⟩
      · rw [execXor_reg, fetchStage_reg, Nat.mod_mod_of_dvd _ dvd_rfl, upd_ne _ _ hi]
      · rw [execXor_flg, bitFlags_high _ _ (by omega), fetchStage_flg]
    · rw [cycle_opcode6 s hop]
      refine ⟨rfl, rfl, rfl, fun i hi => ?_, fun j h8 _ => ?_⟩
      · rw [execRsh_reg, fetchStage_reg, Nat.mod_mod_of_dvd _ dvd_rfl, upd_ne _ _ hi]
      · rw [execRsh_flg, bitFlags_high _ _ (by omega), fetchStage_flg]
  · intro hop
    rw [cycle_opcode7 s hop]
    exact ⟨rfl, rfl, rfl, rfl, fun j hj => by
      rw [execCmp_flg, cmpFlags_low _ _ _ hj, fetchStage_flg]⟩

/-- Concrete state for the C2 witness: ROM word 16419 = 0x4023 (NOR r0, r2, r3)
in ManualStep mode. -/
def frameWitnessState : EmulatorState :=
  { startState with rom := upd startState.rom 0 16419,
                    reg := upd (upd (fun _ => 0) 2 12) 3 34,
                    mode := Mode.ManualStep }

theorem alu_cmp_frame_witness :
    (cycle frameWitnessState).ram 0 = frameWitnessState.ram 0 ∧
    (cycle frameWitnessState).reg 1 = frameWitnessState.reg 1 ∧
    (cycle frameWitnessState).flg 15 = frameWitnessState.flg 15 := by
  have h := (alu_cmp_frame frameWitnessState (Or.inl rfl)).1 (by decide)
  exact ⟨congrFun h.1 0, h.2.2.2.1 1 (by decide), h.2.2.2.2 15 (by decide) (by decide)⟩

/-- C5: In a ManualStep or Automatic state, `cycle` changes the mode iff the
fetched opcode is HALT (0000), in which case the new mode is Setup; on HALT
the pc still advances by 1 and the executed-instruction counter increments by
1, exactly as for every other opcode (the counter conjunct is stated
unconditionally). -/
theorem halt_mode_spec (s : EmulatorState)
    (hmode : s.mode = Mode.ManualStep ∨ ∃ r, s.mode = Mode.Automatic r) :
    ((cycle s).mode ≠ s.mode ↔ opcodeOf (fetched s) = 0) ∧
    (opcodeOf (fetched s) = 0 → (cycle s).mode = Mode.Setup ∧
      (cycle s).pc = (s.pc + 1) % 65536) ∧
    (cycle s).executed_instructions = s.executed_instructions + 1 := by
  have hne : Mode.Setup ≠ s.mode := by
    rcases hmode with hm | ⟨r, hm⟩ <;> rw [hm] <;> simp
  refine ⟨?_, ?_, cycle_executed s⟩
  · rw [cycle_mode]
    by_cases h : opcodeOf (fetched s) = 0
    · rw [if_pos h]
      simp only [h, iff_true]
      exact hne
    · rw [if_neg h]
      simp [h]
  · intro h
    rw [cycle_opcode0 s h]
    exact ⟨rfl, rfl⟩

/-- Concrete state for the C5 witness: ROM all zero, so the fetched word is
the HALT opcode; ManualStep mode. -/
def haltWitnessState : EmulatorState :=
  { startState with mode := Mode.ManualStep }

theorem halt_mode_spec_witness :
    (cycle haltWitnessState).mode = Mode.Setup ∧
    (cycle haltWitnessState).pc = 1 ∧
    (cycle haltWitnessState).executed_instructions =
      haltWitnessState.executed_instructions + 1 := by
  have h := halt_mode_spec haltWitnessState (Or.inl rfl)
  exact ⟨(h.2.1 rfl).1, (h.2.1 rfl).2, h.2.2⟩

/-- C7 (amended): every `pc` value written by a taken branch or jump is
wrapped `% 64`, and every other arm stores the `u16` increment `(pc + 1) %
65536`, which is *not* reduced mod 64; the stored counter can therefore reach
64 (see the counterexample below). -/
theorem pc_increment_or_wrapped_target (s : EmulatorState) :
    (cycle s).pc = (s.pc + 1) % 65536 ∨ (cycle s).pc < 64 := by
  refine cycle_cases s (fun t => t.pc = (s.pc + 1) % 65536 ∨ t.pc < 64)
    (fun _ => Or.inl rfl) (fun _ => Or.inl rfl) (fun _ => Or.inl rfl) (fun _ => Or.inl rfl)
    (fun _ => Or.inl rfl) (fun _ => Or.inl rfl) (fun _ => Or.inl rfl) (fun _ => Or.inl rfl)
    (fun _ => Or.inl rfl) (fun _ => Or.inl rfl) (fun _ => Or.inl rfl) (fun _ => Or.inl rfl)
    (fun _ => Or.inl rfl) (fun _ => ?_) (fun _ => ?_) (fun _ => ?_) (fun _ => Or.inl rfl)
  · show (execBrc (fetched s) (fetchStage s)).pc = (s.pc + 1) % 65536 ∨
      (execBrc (fetched s) (fetchStage s)).pc < 64
    rw [execBrc_pc]
    by_cases h : (fetchStage s).flg (fDest (fetched s) % 16)
    · rw [if_pos h]
      exact Or.inr (Nat.mod_lt _ (by norm_num))
    · rw [if_neg h]
      exact Or.inl rfl
  · show (execIbr (fetched s) (fetchStage s)).pc = (s.pc + 1) % 65536 ∨
      (execIbr (fetched s) (fetchStage s)).pc < 64
    rw [execIbr_pc]
    by_cases h : (fetchStage s).flg (fDest (fetched s) % 16)
    · rw [if_pos h]
      exact Or.inr (Nat.mod_lt _ (by norm_num))
    · rw [if_neg h]
      exact Or.inl rfl
  · show (execJmp (fetched s) (fetchStage s)).pc = (s.pc + 1) % 65536 ∨
      (execJmp (fetched s) (fetchStage s)).pc < 64
    rw [execJmp_pc]
    exact Or.inr (Nat.mod_lt _ (by norm_num))

/-- A ROM source consisting of the single line `1111000000111111`, i.e.
`JMP 63`. -/
def jmpProgram : List Char := "1111000000111111".toList

/-- A reachable state with `pc = 64`: load `JMP 63`, enter ManualStep, execute
the jump (pc becomes 63), then execute the HALT at `rom[63] = 0`, whose
`pc += 1` is not wrapped mod 64. -/
def overflowState : EmulatorState :=
  cycle (cycle { (load_from_file (some jmpProgram) none "prog.bin" startState) with
                   mode := Mode.ManualStep })

theorem pc_six_bit_counterexample :
    Reachable overflowState ∧ overflowState.pc = 64 ∧ ¬ overflowState.pc < 64 := by
  refine ⟨?_, by decide, by decide⟩
  exact Reachable.step
    (Reachable.step
      (Reachable.manual (Reachable.load (some jmpProgram) none "prog.bin" Reachable.start)
        (by decide))
      (Or.inl (by decide)))
    (Or.inl (by decide))

theorem push_log_flg (s : EmulatorState) (e : String) : (push_log s e).flg = s.flg := rfl

theorem reset_last_mods_flg (s : EmulatorState) : (reset_last_mods s).flg = s.flg := rfl

theorem cycle_flg15 (s : EmulatorState) :
    (cycle s).flg 15 = s.flg 15 ∨ (cycle s).flg 15 = true := by
  refine cycle_cases s (fun t => t.flg 15 = s.flg 15 ∨ t.flg 15 = true)
    (fun _ => Or.inl rfl) (fun _ => ?_) (fun _ => ?_) (fun _ => ?_) (fun _ => ?_) (fun _ => ?_)
    (fun _ => ?_) (fun _ => ?_) (fun _ => Or.inl rfl) (fun _ => Or.inl rfl)
    (fun _ => Or.inl rfl) (fun _ => Or.inl rfl) (fun _ => Or.inl rfl) (fun _ => Or.inl rfl)
    (fun _ => Or.inl rfl) (fun _ => Or.inl rfl) (fun _ => Or.inl rfl)
  · exact Or.inl (by rw [execAdd_flg, addFlags_high _ _ _ (by omega), fetchStage_flg])
  · exact Or.inl (by rw [execSub_flg, subFlags_high _ _ _ (by omega), fetchStage_flg])
  · exact Or.inl (by rw [execAnd_flg, bitFlags_high _ _ (by omega), fetchStage_flg])
  · exact Or.inl (by rw [execNor_flg, bitFlags_high _ _ (by omega), fetchStage_flg])
  · exact Or.inl (by rw [execXor_flg, bitFlags_high _ _ (by omega), fetchStage_flg])
  · exact Or.inl (by rw [execRsh_flg, bitFlags_high _ _ (by omega), fetchStage_flg])
  · exact Or.inr (by rw [execCmp_flg, cmpFlags_15])

theorem load_rom_loop_flg (lines : List (List Char)) (idx : Nat) (s : EmulatorState) :
    (load_rom_loop lines idx s).1.flg = s.flg := by
  induction lines generalizing idx s with
  | nil => rfl
  | cons l ls ih =>
    unfold load_rom_loop
    by_cases h : utf8Len l = 16
    · rw [if_pos h]
      cases hp : from_str_radix 4294967296 l with
      | some p => exact ih (idx + 1) (write_to_rom s (idx % 65536) p)
      | none => rfl
    · rw [if_neg h]
      exact ih (idx + 1) s

theorem load_ram_loop_flg (lines : List (List Char)) (idx : Nat) (s : EmulatorState) :
    (load_ram_loop lines idx s).1.flg = s.flg := by
  induction lines generalizing idx s with
  | nil => rfl
  | cons l ls ih =>
    unfold load_ram_loop
    by_cases h : utf8Len l = 8
    · rw [if_pos h]
      cases hp : from_str_radix 65536 l with
      | some p => exact ih (idx + 1) (write_to_ram s (idx % 65536) p)
      | none => rfl
    · rw [if_neg h]
      exact ih (idx + 1) s

theorem load_ram_phase_flg (ramText : Option (List Char)) (s : EmulatorState) :
    (load_ram_phase ramText s).flg = s.flg := by
  cases ramText with
  | none => rfl
  | some v =>
    show (if (load_ram_loop (linesOf v) 0 s).2 then (load_ram_loop (linesOf v) 0 s).1
          else push_log (reset_last_mods (load_ram_loop (linesOf v) 0 s).1)
            "Loaded RAM preset").flg = s.flg
    by_cases h : (load_ram_loop (linesOf v) 0 s).2
    · rw [if_pos h, load_ram_loop_flg]
    · rw [if_neg h, push_log_flg, reset_last_mods_flg, load_ram_loop_flg]

theorem load_from_file_flg (romText ramText : Option (List Char)) (name : String)
    (s : EmulatorState) : (load_from_file romText ramText name s).flg = s.flg := by
  cases romText with
  | none =>
    show (load_ram_phase ramText (push_log s "Program not found")).flg = s.flg
    rw [load_ram_phase_flg, push_log_flg]
  | some v =>
    show (if (load_rom_loop (linesOf v) 0 s).2 then (load_rom_loop (linesOf v) 0 s).1
          else load_ram_phase ramText
            (push_log (reset_last_mods (load_rom_loop (linesOf v) 0 s).1)
              ("Loaded " ++ name))).flg = s.flg
    by_cases h : (load_rom_loop (linesOf v) 0 s).2
    · rw [if_pos h, load_rom_loop_flg]
    · rw [if_neg h, load_ram_phase_flg, push_log_flg, reset_last_mods_flg, load_rom_loop_flg]

/-- C9: every state reachable from the start state by resets, loads, mode
commands and `cycle` calls (the latter only in ManualStep or Automatic mode)
has flag 15 true: `program_reset` (hence `full_reset`) sets it, CMP re-asserts
it, and no other operation writes it. -/
theorem flag15_always_true (s : EmulatorState) (h : Reachable s) : s.flg 15 = true := by
  induction h with
  | start => rfl
  | prog_reset _ _ => rfl
  | full _ _ => rfl
  | load rt rat name _ ih => rw [load_from_file_flg]; exact ih
  | run _ _ ih => exact ih
  | manual _ _ ih => exact ih
  | demote r _ _ ih => exact ih
  | step _ _ ih =>
    rcases cycle_flg15 _ with h' | h'
    · rw [h']; exact ih
    · exact h'

theorem flag15_always_true_witness : startState.flg 15 = true :=
  flag15_always_true startState Reachable.start

/-- A trimmed line that triggers the corruption abort: byte length exactly 16
but failing the base-2 parse. -/
def isCorrupt (l : List Char) : Bool :=
  decide (utf8Len l = 16) && (from_str_radix 4294967296 l).isNone

/-- Reference loader for C6, following the claim's words: a trimmed line of
byte length exactly 16 that parses in base 2 is written to ROM at the line's
index mod 64 (value truncated to 16 bits); lines of other lengths are
skipped; everything from the first corrupt line on is dropped, the words
already written are kept, and corruption is logged. -/
def specRomWrite (s : EmulatorState) (idx : Nat) (l : List Char) : EmulatorState :=
  if utf8Len l = 16 then
    match from_str_radix 4294967296 l with
    | some p => { s with rom := upd s.rom (idx % 64) (p % 65536) }
    | none => s
  else s

def specRomWrites : List (List Char) → Nat → EmulatorState → EmulatorState
  | [], _, s => s
  | l :: ls, idx, s => specRomWrites ls (idx + 1) (specRomWrite s idx l)

def loadRomSpec (lines : List (List Char)) (idx : Nat) (s : EmulatorState) :
    EmulatorState × Bool :=
  let keep := lines.takeWhile (fun l => ! isCorrupt l)
  if keep.length = lines.length then (specRomWrites keep idx s, false)
  else (push_log (specRomWrites keep idx s) "Rom init. corrupted", true)

theorem load_rom_loop_eq_spec (lines : List (List Char)) (idx : Nat) (s : EmulatorState) :
    load_rom_loop lines idx s = loadRomSpec lines idx s := by
  induction lines generalizing idx s with
  | nil => rfl
  | cons l ls ih =>
    unfold load_rom_loop
    by_cases h16 : utf8Len l = 16
    · rw [if_pos h16]
      cases hp : from_str_radix 4294967296 l with
      | none =>
        have hc : isCorrupt l = true := by simp [isCorrupt, h16, hp]
        simp [loadRomSpec, List.takeWhile_cons, hc, specRomWrites]
      | some p =>
        have hc : isCorrupt l = false := by simp [isCorrupt, hp]
        have hw : write_to_rom s (idx % 65536) p = specRomWrite s idx l := by
          rw [specRomWrite, if_pos h16, hp, write_to_rom,
            Nat.mod_mod_of_dvd idx (by norm_num : (64 : Nat) ∣ 65536)]
        show load_rom_loop ls (idx + 1) (write_to_rom s (idx % 65536) p) =
          loadRomSpec (l :: ls) idx s
        rw [ih (idx + 1) (write_to_rom s (idx % 65536) p), hw]
        by_cases hk : (ls.takeWhile (fun l => ! isCorrupt l)).length = ls.length
        · simp [loadRomSpec, List.takeWhile_cons, hc, hk, specRomWrites]
        · simp [loadRomSpec, List.takeWhile_cons, hc, hk, specRomWrites]
    · rw [if_neg h16]
      have hc : isCorrupt l = false := by simp [isCorrupt, h16]
      have hw : specRomWrite s idx l = s := by rw [specRomWrite, if_neg h16]
      rw [ih (idx + 1) s]
      by_cases hk : (ls.takeWhile (fun l => ! isCorrupt l)).length = ls.length
      · simp [loadRomSpec, List.takeWhile_cons, hc, hk, specRomWrites, hw]
      · simp [loadRomSpec, List.takeWhile_cons, hc, hk, specRomWrites, hw]

/-- C6: for every ROM source text, the loading loop over the trimmed lines
equals the reference loader `loadRomSpec`: lines are processed in order, each
16-byte line that parses in base 2 lands at its index mod 64, other lengths
are skipped without aborting, and the first failing 16-byte line logs
`Rom init. corrupted` and stops all further ROM parsing while keeping every
word already written. -/
theorem rom_loading_matches_spec (text : List Char) (s : EmulatorState) :
    load_rom_loop (linesOf text) 0 s = loadRomSpec (linesOf text) 0 s :=
  load_rom_loop_eq_spec (linesOf text) 0 s

theorem toDigit2_eq_none {c : Char} (h1 : c ≠ '0') (h2 : c ≠ '1') : toDigit2 c = none := by
  simp [toDigit2, h1, h2]

theorem parseDigitsPos_none (mx : Nat) : ∀ (cl : List Char) (acc : Nat),
    (∃ c ∈ cl, c ≠ '0' ∧ c ≠ '1') → parseDigitsPos mx cl acc = none := by
  intro cl
  induction cl with
  | nil => intro acc h; simp at h
  | cons c cs ih =>
    intro acc h
    cases hdig : toDigit2 c with
    | none => unfold parseDigitsPos; rw [hdig]
    | some d =>
      have hcs : ∃ x ∈ cs, x ≠ '0' ∧ x ≠ '1' := by
        rcases h with ⟨x, hx, hx1, hx2⟩
        rcases List.mem_cons.mp hx with rfl | hmem
        · rw [toDigit2_eq_none hx1 hx2] at hdig; cases hdig
        · exact ⟨x, hmem, hx1, hx2⟩
      unfold parseDigitsPos
      rw [hdig]
      show (if acc * 2 + d < mx then parseDigitsPos mx cs (acc * 2 + d) else none) = none
      by_cases hlt : acc * 2 + d < mx
      · rw [if_pos hlt]; exact ih _ hcs
      · rw [if_neg hlt]

/-- The 16-character line `+000000000000001`: a '+' followed by fifteen binary
digits. -/
def plusLine : List Char := "+000000000000001".toList

/-- C8 counterexample: the line `+000000000000001` has trimmed length 16 and
contains a character ('+') that is neither '0' nor '1', yet loading a ROM
source consisting of exactly this line does not abort: Rust's
`u32::from_str_radix` accepts a leading sign, so the word 1 is written to
`rom[0]`. -/
theorem malformed_line_counterexample :
    utf8Len (trim plusLine) = 16 ∧
    (∃ c ∈ trim plusLine, c ≠ '0' ∧ c ≠ '1') ∧
    (load_rom_loop (linesOf plusLine) 0 startState).2 = false ∧
    (load_rom_loop (linesOf plusLine) 0 startState).1.rom 0 = 1 := by
  decide

/-- C8 (amended): a trimmed line of byte length exactly 16 whose first
character is not a sign ('+' or '-') and which contains any character other
than '0' or '1' is malformed and halts further ROM parsing with a corruption
log; a sign-led 16-character line may instead be accepted and written (see
the counterexample). -/
theorem malformed_unsigned_line_halts (l : List Char) (rest : List (List Char))
    (idx : Nat) (s : EmulatorState)
    (h16 : utf8Len l = 16)
    (hplus : l.head? ≠ some '+')
    (hminus : l.head? ≠ some '-')
    (hbad : ∃ c ∈ l, c ≠ '0' ∧ c ≠ '1') :
    load_rom_loop (l :: rest) idx s = (push_log s "Rom init. corrupted", true) := by
  have hparse : from_str_radix 4294967296 l = none := by
    cases l with
    | nil => simp [utf8Len] at h16
    | cons c cs =>
      have hc1 : c ≠ '+' := fun h => hplus (by simp [h])
      have hc2 : c ≠ '-' := fun h => hminus (by simp [h])
      unfold from_str_radix
      show (if c = '+' then (if cs.isEmpty then none else parseDigitsPos 4294967296 cs 0)
            else if c = '-' then (if cs.isEmpty then none else parseDigitsNeg 4294967296 cs 0)
            else parseDigitsPos 4294967296 (c :: cs) 0) = none
      rw [if_neg hc1, if_neg hc2]
      exact parseDigitsPos_none _ _ _ hbad
  unfold load_rom_loop
  rw [if_pos h16, hparse]

/-- The 16-character line `2000000000000000` (a '2' is not a binary digit). -/
def badDigitLine : List Char := "2000000000000000".toList

theorem malformed_unsigned_line_halts_witness :
    load_rom_loop [badDigitLine] 0 startState =
      (push_log startState "Rom init. corrupted", true) :=
  malformed_unsigned_line_halts badDigitLine [] 0 startState (by decide) (by decide)
    (by decide) (by decide)

theorem specRomWrite_ram (s : EmulatorState) (idx : Nat) (l : List Char) :
    (specRomWrite s idx l).ram = s.ram := by
  unfold specRomWrite
  by_cases h : utf8Len l = 16
  · rw [if_pos h]
    cases hp : from_str_radix 4294967296 l <;> rfl
  · rw [if_neg h]

theorem specRomWrite_log (s : EmulatorState) (idx : Nat) (l : List Char) :
    (specRomWrite s idx l).log_buffer = s.log_buffer := by
  unfold specRomWrite
  by_cases h : utf8Len l = 16
  · rw [if_pos h]
    cases hp : from_str_radix 4294967296 l <;> rfl
  · rw [if_neg h]

theorem specRomWrites_ram : ∀ (ls : List (List Char)) (idx : Nat) (s : EmulatorState),
    (specRomWrites ls idx s).ram = s.ram
  | [], _, _ => rfl
  | l :: ls, idx, s => by
    show (specRomWrites ls (idx + 1) (specRomWrite s idx l)).ram = s.ram
    rw [specRomWrites_ram ls (idx + 1) (specRomWrite s idx l), specRomWrite_ram]

theorem specRomWrites_log : ∀ (ls : List (List Char)) (idx : Nat) (s : EmulatorState),
    (specRomWrites ls idx s).log_buffer = s.log_buffer
  | [], _, _ => rfl
  | l :: ls, idx, s => by
    show (specRomWrites ls (idx + 1) (specRomWrite s idx l)).log_buffer = s.log_buffer
    rw [specRomWrites_log ls (idx + 1) (specRomWrite s idx l), specRomWrite_log]

/-- C10: when ROM parsing aborts on a malformed 16-byte line, `load_from_file`
returns immediately after pushing the corruption log entry: the result does
not depend on the RAM source or on the ROM file name (so the RAM source is
never read and no `Loaded` message is logged), RAM is unchanged, the newest
log entry is `Rom init. corrupted`, and the older log entries are just the
shifted previous log. -/
theorem rom_corruption_skips_ram (text : List Char) (ram1 ram2 : Option (List Char))
    (name1 name2 : String) (s : EmulatorState)
    (h : ∃ l ∈ linesOf text, isCorrupt l = true) :
    load_from_file (some text) ram1 name1 s = load_from_file (some text) ram2 name2 s ∧
    (load_from_file (some text) ram1 name1 s).ram = s.ram ∧
    (load_from_file (some text) ram1 name1 s).log_buffer 6 = pad22 "Rom init. corrupted" ∧
    ∀ i, i < 6 →
      (load_from_file (some text) ram1 name1 s).log_buffer i = s.log_buffer (i + 1) := by
  have hne : ((linesOf text).takeWhile (fun l => ! isCorrupt l)).length ≠
      (linesOf text).length := by
    intro hlen
    have heq := (List.takeWhile_prefix (fun l => ! isCorrupt l)).eq_of_length hlen
    rcases h with ⟨l, hl, hc⟩
    have hall := List.takeWhile_eq_self_iff.mp heq l hl
    rw [hc] at hall
    simp at hall
  have hloop : load_rom_loop (linesOf text) 0 s =
      (push_log (specRomWrites ((linesOf text).takeWhile (fun l => ! isCorrupt l)) 0 s)
        "Rom init. corrupted", true) := by
    rw [load_rom_loop_eq_spec]
    unfold loadRomSpec
    rw [if_neg hne]
  have hred : ∀ (rt : Option (List Char)) (nm : String),
      load_from_file (some text) rt nm s =
        push_log (specRomWrites ((linesOf text).takeWhile (fun l => ! isCorrupt l)) 0 s)
          "Rom init. corrupted" := by
    intro rt nm
    show (if (load_rom_loop (linesOf text) 0 s).2 then (load_rom_loop (linesOf text) 0 s).1
          else load_ram_phase rt
            (push_log (reset_last_mods (load_rom_loop (linesOf text) 0 s).1)
              ("Loaded " ++ nm))) = _
    rw [hloop]
    rfl
  refine ⟨by rw [hred ram1 name1, hred ram2 name2], ?_, ?_, ?_⟩
  · rw [hred ram1 name1]
    show (specRomWrites ((linesOf text).takeWhile (fun l => ! isCorrupt l)) 0 s).ram = s.ram
    exact specRomWrites_ram _ _ _
  · rw [hred ram1 name1]
    simp [push_log]
  · intro i hi
    rw [hred ram1 name1]
    simp [push_log, hi, specRomWrites_log]

/-- A two-line ROM source whose first line is a valid word and whose second
line is a malformed 16-character line. -/
def corruptRomText : List Char := ("0000000000000010\nx000000000000001").toList

theorem rom_corruption_skips_ram_witness :
    load_from_file (some corruptRomText) (some ("00000001").toList) "a.bin" startState =
      load_from_file (some corruptRomText) none "b.bin" startState ∧
    (load_from_file (some corruptRomText) (some ("00000001").toList) "a.bin"
      startState).ram 0 = startState.ram 0 ∧
    (load_from_file (some corruptRomText) (some ("00000001").toList) "a.bin"
      startState).log_buffer 6 = pad22 "Rom init. corrupted" := by
  have h := rom_corruption_skips_ram corruptRomText (some ("00000001").toList) none
    "a.bin" "b.bin" startState (by decide)
  exact ⟨h.1, congrFun h.2.1 0, h.2.2.1⟩
